import Mathlib

/-!
Verification development for the tokbatch-downloader pipeline
(src/services/aiService.ts, src/components, src/unnamed/part_000).

The TypeScript source is shallowly embedded: network effects are supplied
by explicit environments describing the outcome of each outbound request,
asynchronous waits are recorded as trace events, and the mutable task list
is threaded explicitly. Definitions follow the source line by line; the
comments cite the corresponding places in aiService.ts.
-/

namespace TokBatch

/-- Helper for percent encoding: hexadecimal digit characters. -/
def hexDigit (n : Nat) : Char :=
  if n < 10 then Char.ofNat (48 + n) else Char.ofNat (55 + n)

/-- Characters that JavaScript's encodeURIComponent leaves unescaped. -/
def uriUnreserved (c : Char) : Bool :=
  c.isAlphanum || c = '-' || c = '_' || c = '.' || c = '!' || c = '~' ||
    c = '*' || c = '(' || c = ')' || c = Char.ofNat 39

/-- UTF-8 bytes of a code point, as natural numbers. -/
def utf8Bytes (n : Nat) : List Nat :=
  if n < 128 then [n]
  else if n < 2048 then [192 + n / 64, 128 + n % 64]
  else if n < 65536 then [224 + n / 4096, 128 + (n / 64) % 64, 128 + n % 64]
  else [240 + n / 262144, 128 + (n / 4096) % 64, 128 + (n / 64) % 64, 128 + n % 64]

/-- Percent encoding of one byte. -/
def pctByte (b : Nat) : List Char :=
  [Char.ofNat 37, hexDigit (b / 16), hexDigit (b % 16)]

/-- Model of JavaScript's encodeURIComponent builtin. -/
def encodeURIComponent (s : String) : String :=
  String.mk (s.toList.flatMap fun c =>
    if uriUnreserved c then [c] else (utf8Bytes c.toNat).flatMap pctByte)

/-- Fetch kind selector: aiService.ts passes 'json' or 'blob' to fetchWithProxies. -/
inductive FetchKind
  | json
  | blob
deriving DecidableEq

/-- Relevant fields of the tikwm `data` envelope read by resolveVideoData
(aiService.ts lines 102-108): `id`, `title`, `cover`, `play`, `size`. -/
structure TikData where
  vid : String
  title : Option String
  cover : Option String
  play : Option String
  size : Option Nat
deriving DecidableEq

/-- Payload returned by one fetch: a parsed JSON object (with the fields the
resolver inspects: `code`, `data`, `msg`), a raw undecoded string (the
AllOrigins /get fallback can return `wrapper.contents` unparsed, line 80),
or a binary blob (modelled by its byte string). -/
inductive Payload
  | json (code : Option Int) (dataField : Option TikData) (msg : Option String)
  | raw (s : String)
  | blob (bytes : String)
deriving DecidableEq

/-- Outcome of one proxied request attempt as observed by the loop in
fetchWithProxies (lines 38-66): a thrown network error or timeout, a non-ok
response, or a response body together with the result of JSON.parse on it. -/
inductive StrategyOutcome
  | netErr
  | notOk
  | body (text : String) (parsed : Option Payload)

/-- Outcome of the AllOrigins /get wrapped fallback request (lines 70-87):
`contents s parsed` carries the envelope's string field `s` and the result
`parsed` of JSON.parse on it; `noContents` covers an envelope whose
`contents` field is absent. -/
inductive FallbackOutcome
  | netErr
  | notOk
  | noContents
  | contents (s : String) (parsed : Option Payload)

/-- Network environment for one fetchWithProxies call: the outcome of each
of the four proxy strategies and of the wrapped fallback. -/
structure FetchEnv where
  strat : Nat → StrategyOutcome
  fallback : FallbackOutcome

/-- Result of fetchWithProxies: a payload, or the single thrown error. -/
inductive FetchResult
  | ok (p : Payload)
  | err (msg : String)
deriving DecidableEq

/-- The only error message fetchWithProxies ever throws (line 89). -/
def proxiesErrorMsg : String := "All proxies failed to fetch data."

/-- Per-attempt timeout (line 43): 15s for video blobs, 8s for JSON. -/
def timeoutFor : FetchKind → Nat
  | .blob => 15000
  | .json => 8000

/-- The ordered proxy strategies (lines 26-35); index 3 is the untransformed
direct URL, tried last. -/
def proxyUrl (u : String) : Nat → String
  | 0 => "https://corsproxy.io/?" ++ encodeURIComponent u
  | 1 => "https://api.allorigins.win/raw?url=" ++ encodeURIComponent u
  | 2 => "https://api.codetabs.com/v1/proxy?quest=" ++ encodeURIComponent u
  | _ => u

/-- URL of the wrapped AllOrigins /get fallback (line 72). -/
def wrappedUrl (u : String) : String :=
  "https://api.allorigins.win/get?url=" ++ encodeURIComponent u

/-- One outbound request attempt: the URL requested and the timeout armed
for it (the wrapped fallback request at line 72 sets no timeout). -/
structure Attempt where
  url : String
  timeout : Option Nat
deriving DecidableEq

/-- What one strategy iteration yields (body of the loop at lines 38-66):
json kind keeps the parsed JSON if parsing succeeded, blob kind returns the
body as a blob; errors and non-ok responses yield nothing. -/
def stratParse (kind : FetchKind) : StrategyOutcome → Option Payload
  | .netErr => none
  | .notOk => none
  | .body text parsed =>
    match kind with
    | .json => parsed
    | .blob => some (.blob text)

/-- The strategy loop of fetchWithProxies over the given strategy indices:
returns the first successful payload and the list of attempts issued. -/
def runStrategies (u : String) (kind : FetchKind) (env : FetchEnv) :
    List Nat → Option Payload × List Attempt
  | [] => (none, [])
  | i :: rest =>
    let att : Attempt := ⟨proxyUrl u i, some (timeoutFor kind)⟩
    match stratParse kind (env.strat i) with
    | some p => (some p, [att])
    | none =>
      let r := runStrategies u kind env rest
      (r.1, att :: r.2)

/-- fetchWithProxies (aiService.ts lines 24-90): try the four strategies in
order; on total failure, for json only, try the wrapped AllOrigins /get
fallback, returning its parsed contents, or the raw contents string when
parsing fails; otherwise throw `proxiesErrorMsg`. -/
def fetchWithProxies (targetUrl : String) (kind : FetchKind) (env : FetchEnv) :
    FetchResult × List Attempt :=
  let r := runStrategies targetUrl kind env [0, 1, 2, 3]
  match r.1 with
  | some p => (.ok p, r.2)
  | none =>
    match kind with
    | .blob => (.err proxiesErrorMsg, r.2)
    | .json =>
      let fatt : Attempt := ⟨wrappedUrl targetUrl, none⟩
      match env.fallback with
      | .netErr => (.err proxiesErrorMsg, r.2 ++ [fatt])
      | .notOk => (.err proxiesErrorMsg, r.2 ++ [fatt])
      | .noContents => (.err proxiesErrorMsg, r.2 ++ [fatt])
      | .contents s parsed =>
        if s = "" then (.err proxiesErrorMsg, r.2 ++ [fatt])
        else
          match parsed with
          | some p => (.ok p, r.2 ++ [fatt])
          | none => (.ok (.raw s), r.2 ++ [fatt])

/-- Decides whether a character list occurs as a contiguous run of another. -/
def hasSubList (pat : List Char) : List Char → Bool
  | [] => pat.isEmpty
  | c :: tl => pat.isPrefixOf (c :: tl) || hasSubList pat tl

/-- ASCII lower-casing of one character, as toLowerCase acts on ASCII. -/
def asciiLower (c : Char) : Char :=
  if c.isUpper then Char.ofNat (c.toNat + 32) else c

/-- The case-insensitive "limit" substring test used at lines 111 and 122:
`msg.toLowerCase().includes('limit')`. -/
def containsLimit (m : String) : Bool :=
  hasSubList "limit".toList (m.toList.map asciiLower)

/-- The tikwm API URL built at line 95. -/
def apiUrl (url : String) : String :=
  "https://www.tikwm.com/api/?url=" ++ encodeURIComponent url

/-- Success predicate of the resolver (line 102):
`data && data.code === 0 && data.data` is truthy. -/
def payloadSuccess : Payload → Bool
  | .json (some 0) (some _) _ => true
  | _ => false

/-- Rate-limit test of the try branch (line 111): `data?.msg` is a truthy
string whose lowercase form includes "limit". -/
def rlPayload : Payload → Bool
  | .json _ _ (some m) => (!(m == "")) && containsLimit m
  | _ => false

/-- Message of the error thrown at line 118: `data?.msg || 'Video not found'`. -/
def throwMsg : Payload → String
  | .json _ _ (some m) => if m = "" then "Video not found" else m
  | _ => "Video not found"

/-- Message of the rethrow at line 128:
`error.message || 'Video data not found. Link might be invalid.'`. -/
def fallbackErr (m : String) : String :=
  if m = "" then "Video data not found. Link might be invalid." else m

/-- Resolved metadata produced on success (lines 103-108). -/
structure ResolvedData where
  title : String
  thumbnail : Option String
  downloadUrl : Option String
  size : Option Nat
deriving DecidableEq

/-- Result of one resolveVideoData call: metadata or a thrown message. -/
inductive ResolveResult
  | ok (d : ResolvedData)
  | err (msg : String)
deriving DecidableEq

/-- Mapping of a successful payload into metadata (lines 103-108); the
default branch is unreachable because payloadSuccess requires a json
payload whose data field is present. -/
def mapPayload : Payload → ResolvedData
  | .json _ (some d) _ =>
    { title := match d.title with
        | some t => if t = "" then "tiktok_video_" ++ d.vid else t
        | none => "tiktok_video_" ++ d.vid
      thumbnail := d.cover
      downloadUrl := d.play
      size := d.size }
  | _ => { title := "", thumbnail := none, downloadUrl := none, size := none }

/-- Observable trace of one resolveVideoData call: how many fetchWithProxies
calls were made in total and which backoff delays were awaited, in order. -/
structure ResolveTrace where
  attempts : Nat
  delays : List Nat
deriving DecidableEq

/-- resolveVideoData (aiService.ts lines 93-130), with the network supplied
by `env n`, the environment of the fetch made at recursion depth `n`.

Control flow notes, mirroring the JavaScript:
the recursive calls are written `return resolveVideoData(...)` without
`await`, so a rejection of the recursive call bypasses the enclosing
catch block and propagates directly to the original caller; the try
branch (line 114) waits 2000 + retryCount * 1000 ms, the catch branch
(line 123) waits a flat 2000 ms. -/
def resolveVideoData (url : String) (env : Nat → FetchEnv) (retryCount : Nat) :
    ResolveResult × ResolveTrace :=
  match (fetchWithProxies (apiUrl url) .json (env retryCount)).1 with
  | .ok p =>
    if payloadSuccess p then
      (.ok (mapPayload p), ⟨1, []⟩)
    else if h : rlPayload p = true ∧ retryCount < 3 then
      let r := resolveVideoData url env (retryCount + 1)
      (r.1, ⟨r.2.attempts + 1, (2000 + retryCount * 1000) :: r.2.delays⟩)
    else if h2 : containsLimit (throwMsg p) = true ∧ retryCount < 3 then
      let r := resolveVideoData url env (retryCount + 1)
      (r.1, ⟨r.2.attempts + 1, 2000 :: r.2.delays⟩)
    else
      (.err (fallbackErr (throwMsg p)), ⟨1, []⟩)
  | .err m =>
    if h : containsLimit m = true ∧ retryCount < 3 then
      let r := resolveVideoData url env (retryCount + 1)
      (r.1, ⟨r.2.attempts + 1, 2000 :: r.2.delays⟩)
    else
      (.err (fallbackErr m), ⟨1, []⟩)
termination_by 3 - retryCount
decreasing_by all_goals omega

/-- Classification of one fetch outcome as rate limited, per the spec: a
well-formed payload whose failure message matches the case-insensitive
"limit" substring, or a thrown error whose message matches it. -/
def rateLimited : FetchResult → Bool
  | .ok p => (!payloadSuccess p) && rlPayload p
  | .err m => containsLimit m

/-- Task statuses (src/unnamed/part_000, enum TaskStatus). -/
inductive TaskStatus
  | IDLE
  | QUEUED
  | DOWNLOADING
  | COMPLETED
  | ERROR
deriving DecidableEq

/-- One work item (src/unnamed/part_000, interface VideoTask). The id is a
natural number drawn from a fresh counter, standing in for the random
string id generated at line 134; the spec requires ids unique per store. -/
structure VideoTask where
  id : Nat
  url : String
  status : TaskStatus
  progress : Nat
  title : Option String
  thumbnail : Option String
  downloadUrl : Option String
  errorMessage : Option String
deriving DecidableEq

/-- Fresh IDLE tasks created for the given links (addLinks, lines 132-140),
with sequential ids starting at `nextId`. -/
def newTasks (nextId : Nat) : List String → List VideoTask
  | [] => []
  | u :: ls =>
    { id := nextId, url := u, status := .IDLE, progress := 0,
      title := none, thumbnail := none, downloadUrl := none,
      errorMessage := none } :: newTasks (nextId + 1) ls

/-- addLinks (lines 132-140): append fresh IDLE tasks for every link. -/
def addLinks (st : List VideoTask) (nextId : Nat) (links : List String) :
    List VideoTask × Nat :=
  (st ++ newTasks nextId links, nextId + links.length)

/-- removeTask (lines 142-144): drop the task with the given id. -/
def removeTask (st : List VideoTask) (id : Nat) : List VideoTask :=
  st.filter (fun t => t.id != id)

/-- clearCompleted (lines 146-148): drop every COMPLETED task. -/
def clearCompleted (st : List VideoTask) : List VideoTask :=
  st.filter (fun t => t.status != TaskStatus.COMPLETED)

/-- The update applied when a task is marked as being resolved
(lines 168-173 and 215): DOWNLOADING, progress 20, errorMessage cleared. -/
def markTask (t : VideoTask) : VideoTask :=
  { t with status := .DOWNLOADING, progress := 20, errorMessage := none }

/-- The update applied on successful resolution (lines 182-189 and 219-226):
title, thumbnail and downloadUrl from the resolved data, COMPLETED,
progress 100; errorMessage is not touched. -/
def completeTask (t : VideoTask) (d : ResolvedData) : VideoTask :=
  { t with
    title := some d.title
    thumbnail := d.thumbnail
    downloadUrl := d.downloadUrl
    status := .COMPLETED
    progress := 100 }

/-- The update applied on failed resolution (lines 192-197 and 228-233):
ERROR, errorMessage from the thrown message with a default, progress 0;
downloadUrl is not touched. -/
def failTask (t : VideoTask) (m dflt : String) : VideoTask :=
  { t with
    status := .ERROR
    errorMessage := some (if m = "" then dflt else m)
    progress := 0 }

/-- Marking a whole chunk as DOWNLOADING (lines 168-173): every task whose
id occurs in the chunk is updated. -/
def markChunkDownloading (st : List VideoTask) (chunk : List VideoTask) :
    List VideoTask :=
  st.map fun t => if chunk.any (fun c => c.id == t.id) then markTask t else t

/-- Writing one task's resolution outcome back to the store by id
(lines 182-197). -/
def applyOutcome (st : List VideoTask) (id : Nat) (r : ResolveResult)
    (dflt : String) : List VideoTask :=
  match r with
  | .ok d => st.map fun t => if t.id == id then completeTask t d else t
  | .err m => st.map fun t => if t.id == id then failTask t m dflt else t

/-- The pending snapshot taken at the start of processBatch (line 154):
tasks whose status is IDLE or ERROR. -/
def pendingSnapshot (st : List VideoTask) : List VideoTask :=
  st.filter fun t => t.status == TaskStatus.IDLE || t.status == TaskStatus.ERROR

/-- Concurrency group size of the batch scheduler (line 162). -/
def BATCH_SIZE : Nat := 1

/-- Fixed-size chunking of a list, as by the loop `i += n` (lines 164-165). -/
def chunksOf (n : Nat) : List α → List (List α)
  | [] => []
  | x :: xs => (x :: xs.take (n - 1)) :: chunksOf n (xs.drop (n - 1))
termination_by l => l.length
decreasing_by simp; omega

/-- Observable scheduler events: the start of a group of the given size,
and an awaited pacing delay in milliseconds. -/
inductive BatchEvent
  | group (size : Nat)
  | delay (ms : Nat)
deriving DecidableEq

/-- The chunk loop of processBatch (lines 164-205): mark the chunk as
DOWNLOADING, settle every member's resolution (the resolver outcome of a
task is supplied by the oracle `R`, standing for that task's own
`resolveVideoData(task.url)` call), then await a 1300 ms pacing delay
when further chunks remain (lines 201-204). -/
def processChunks (R : VideoTask → ResolveResult) :
    List (List VideoTask) → List VideoTask → List VideoTask × List BatchEvent
  | [], st => (st, [])
  | c :: cs, st =>
    let st1 := markChunkDownloading st c
    let st2 := c.foldl (fun s t => applyOutcome s t.id (R t) "Failed to fetch.") st1
    let rest := processChunks R cs st2
    (rest.1, .group c.length :: (if cs.isEmpty then rest.2 else .delay 1300 :: rest.2))

/-- processBatch (aiService.ts lines 150-208): snapshot the pending tasks,
partition them into BATCH_SIZE groups, and process the groups in order. -/
def processBatch (st : List VideoTask) (R : VideoTask → ResolveResult) :
    List VideoTask × List BatchEvent :=
  processChunks R (chunksOf BATCH_SIZE (pendingSnapshot st)) st

/-- handleSingleRetry (lines 211-235): look the task up by id, mark it
DOWNLOADING, and record its own resolution outcome. -/
def handleSingleRetry (st : List VideoTask) (id : Nat)
    (R : VideoTask → ResolveResult) : List VideoTask :=
  match st.find? (fun t => t.id == id) with
  | none => st
  | some task =>
    applyOutcome (st.map fun t => if t.id == id then markTask t else t)
      id (R task) "Retry failed."

/-- The reset applied by handleRetryAllErrors (line 240): every ERROR task
returns to IDLE with errorMessage cleared and progress 0. -/
def resetIfError (t : VideoTask) : VideoTask :=
  if t.status == TaskStatus.ERROR then
    { t with status := .IDLE, errorMessage := none, progress := 0 }
  else t

/-- handleRetryAllErrors (lines 238-246): reset all ERROR tasks to IDLE,
then trigger a fresh processBatch pass. -/
def handleRetryAllErrors (st : List VideoTask) (R : VideoTask → ResolveResult) :
    List VideoTask × List BatchEvent :=
  processBatch (st.map resetIfError) R

/-- Truthiness of `task.downloadUrl` (used at lines 263 and 279). -/
def downloadUrlTruthy (t : VideoTask) : Bool :=
  match t.downloadUrl with
  | some u => u != ""
  | none => false

/-- The sanitized filename stem built at line 281:
`(task.title || 'video_' + task.id).replace(/[^a-z0-9]/gi, '_').substring(0, 50)`. -/
def safeName (t : VideoTask) : String :=
  let base : String :=
    match t.title with
    | some s => if s = "" then "video_" ++ toString t.id else s
    | none => "video_" ++ toString t.id
  String.mk (((base.toList.map fun c =>
    if c.isAlphanum then c else Char.ofNat 95)).take 50)

/-- One archive entry: a fetched media file or a plain-text placeholder. -/
inductive ZipEntry
  | media (bytes : String)
  | placeholder (text : String)
deriving DecidableEq

/-- JSZip's `folder.file(name, data)`: adding a file under an existing name
replaces that entry in place; otherwise the entry is appended. -/
def zipFile (folder : List (String × ZipEntry)) (name : String) (e : ZipEntry) :
    List (String × ZipEntry) :=
  if folder.any (fun p => p.1 == name) then
    folder.map fun p => if p.1 == name then (name, e) else p
  else folder ++ [(name, e)]

/-- Concurrency group size of the bulk download stage (line 273). -/
def DOWNLOAD_BATCH : Nat := 3

/-- Processing of one completed task inside a bulk-download chunk
(lines 278-292): skip tasks without a truthy downloadUrl, then fetch the
binary payload (the outcome of the task's own `fetchWithProxies(url,
'blob')` call is supplied by the oracle `B`); add the media file on
success, or the error placeholder text file on failure. -/
def bulkStep (B : VideoTask → Option String)
    (folder : List (String × ZipEntry)) (t : VideoTask) :
    List (String × ZipEntry) :=
  if downloadUrlTruthy t = false then folder
  else
    match B t with
    | some bytes => zipFile folder (safeName t ++ ".mp4") (.media bytes)
    | none =>
      zipFile folder (safeName t ++ "_error.txt")
        (.placeholder ("Failed to download: " ++ t.url ++ "\n" ++
          "Error: Could not fetch video data via proxies."))

/-- handleBulkDownload (aiService.ts lines 262-304): filter the completed
tasks carrying a truthy downloadUrl, process them in chunks of
DOWNLOAD_BATCH, and collect the resulting archive entries. -/
def handleBulkDownload (tasks : List VideoTask)
    (B : VideoTask → Option String) : List (String × ZipEntry) :=
  let completedTasks := tasks.filter fun t =>
    t.status == TaskStatus.COMPLETED && downloadUrlTruthy t
  (chunksOf DOWNLOAD_BATCH completedTasks).foldl
    (fun folder c => c.foldl (bulkStep B) folder) []

/-- The name an input task's archive entry is filed under. -/
def entryName (B : VideoTask → Option String) (t : VideoTask) : String :=
  safeName t ++ (match B t with | some _ => ".mp4" | none => "_error.txt")

/-- The archive entry an input task contributes. -/
def entryVal (B : VideoTask → Option String) (t : VideoTask) : ZipEntry :=
  match B t with
  | some bytes => .media bytes
  | none =>
    .placeholder ("Failed to download: " ++ t.url ++ "\n" ++
      "Error: Could not fetch video data via proxies.")

/-- The application state: the task list plus the fresh-id counter. -/
structure AppState where
  tasks : List VideoTask
  nextId : Nat

/-- States reachable through the operations the application exposes
(App component of aiService.ts): enqueue via addLinks, the batch run
(which performs the markResolving / markCompleted / markFailed
transitions per item), single retry (offered by TaskItem.tsx line 93
only for a task in the ERROR state), retry-all-failed (resetForRetry over
every ERROR task followed by a fresh batch pass), removal, and
clear-completed. Resolver outcomes are arbitrary oracles. -/
inductive Reach : AppState → Prop
  | init : Reach ⟨[], 0⟩
  | add (s : AppState) (links : List String) : Reach s →
      Reach ⟨(addLinks s.tasks s.nextId links).1, (addLinks s.tasks s.nextId links).2⟩
  | remove (s : AppState) (id : Nat) : Reach s →
      Reach ⟨removeTask s.tasks id, s.nextId⟩
  | clear (s : AppState) : Reach s →
      Reach ⟨clearCompleted s.tasks, s.nextId⟩
  | batch (s : AppState) (R : VideoTask → ResolveResult) : Reach s →
      Reach ⟨(processBatch s.tasks R).1, s.nextId⟩
  | retryOne (s : AppState) (id : Nat) (R : VideoTask → ResolveResult) :
      Reach s → (∃ t ∈ s.tasks, t.id = id ∧ t.status = TaskStatus.ERROR) →
      Reach ⟨handleSingleRetry s.tasks id R, s.nextId⟩
  | retryAll (s : AppState) (R : VideoTask → ResolveResult) : Reach s →
      Reach ⟨(handleRetryAllErrors s.tasks R).1, s.nextId⟩

/-- The per-task data invariant claimed by the spec: downloadUrl is
populated only in the COMPLETED state, and errorMessage holds a non-empty
string exactly in the ERROR state. -/
def TaskInv (t : VideoTask) : Prop :=
  (t.downloadUrl.isSome → t.status = TaskStatus.COMPLETED) ∧
    ((∃ m, t.errorMessage = some m ∧ m ≠ "") ↔ t.status = TaskStatus.ERROR)

/-- Message field of a payload, as read by `data?.msg`. -/
def payloadMsg : Payload → Option String
  | .json _ _ m => m
  | _ => none

/-- The complete per-task transition a batch run applies to one snapshot
member: the DOWNLOADING marking followed by its own outcome. -/
def resolvedTask (t : VideoTask) (r : ResolveResult) (dflt : String) : VideoTask :=
  match r with
  | .ok d => completeTask (markTask t) d
  | .err m => failTask (markTask t) m dflt

/-- One singleton-group step of the batch run. -/
def stepOne (R : VideoTask → ResolveResult) (s : List VideoTask)
    (x : VideoTask) : List VideoTask :=
  applyOutcome (markChunkDownloading s [x]) x.id (R x) "Failed to fetch."

/-- Store-level well-formedness: pairwise distinct ids and the per-task
data invariant. -/
def ListGood (st : List VideoTask) : Prop :=
  (st.map VideoTask.id).Nodup ∧ ∀ t ∈ st, TaskInv t

/-- Concrete ERROR task used to refute C7. -/
def errTaskC7 : VideoTask :=
  { id := 0
    url := "https://www.tiktok.com/@u/video/1"
    status := .ERROR
    progress := 0
    title := none
    thumbnail := none
    downloadUrl := none
    errorMessage := some "Video not found" }

/-- Concrete IDLE task used in witnesses and instances. -/
def idleTask (n : Nat) : VideoTask :=
  { id := n
    url := "https://www.tiktok.com/@u/video/1"
    status := .IDLE
    progress := 0
    title := none
    thumbnail := none
    downloadUrl := none
    errorMessage := none }

/-- Concrete COMPLETED task with the given id and title. -/
def doneTask (n : Nat) (title : String) : VideoTask :=
  { id := n
    url := "https://www.tiktok.com/@u/video/1"
    status := .COMPLETED
    progress := 100
    title := some title
    thumbnail := none
    downloadUrl := some "https://cdn.test/v.mp4"
    errorMessage := none }

/-- Concrete successful payload used in witnesses. -/
def payloadC5 : Payload :=
  .json (some 0)
    (some { vid := "42", title := some "demo", cover := none,
            play := some "https://cdn.test/v.mp4", size := none })
    none

/-- Concrete fetch environment in which only strategy 2 succeeds. -/
def envC5 : FetchEnv :=
  { strat := fun i => if i == 2 then .body "body" (some payloadC5) else .netErr
    fallback := .netErr }

/-- Concrete fetch environment refuting C4: every strategy fails and the
wrapped fallback envelope holds a string that does not parse as JSON. -/
def envC4 : FetchEnv :=
  { strat := fun _ => .netErr
    fallback := .contents "not json at all" none }

/-- Concrete fetch environment whose first strategy always yields a
rate-limited tikwm payload. -/
def envRL : FetchEnv :=
  { strat := fun i =>
      if i == 0 then
        .body "resp" (some (.json (some 1) none (some "Free Api Limit Reached")))
      else .netErr
    fallback := .netErr }

/-- Resolution outcome used in the C6 witness: task id 1 always fails,
every other task succeeds. -/
def failSecondR : VideoTask → ResolveResult := fun t =>
  if t.id == 1 then .err "Video not found"
  else .ok { title := "demo", thumbnail := none,
             downloadUrl := some "https://cdn.test/v.mp4", size := none }

/-- Binary fetch oracle for the C3 witness: id 0 succeeds, others fail. -/
def bulkOracle : VideoTask → Option String := fun t =>
  if t.id == 0 then some "bytes" else none

/-! Theorems. -/

/-- C10: the clear-completed operation removes exactly the COMPLETED tasks;
every task in any other status remains in the list, with all fields
unchanged, and the relative order of the remaining tasks is preserved
(the result is a sublist of the original). -/
theorem clearCompleted_spec (st : List VideoTask) :
    (∀ t, t ∈ clearCompleted st ↔ t ∈ st ∧ t.status ≠ TaskStatus.COMPLETED) ∧
    (clearCompleted st).Sublist st := by
  refine ⟨fun t => ?_, List.filter_sublist st⟩
  simp [clearCompleted, List.mem_filter, bne_iff_ne]

/-- C7 counterexample: the snapshot taken at the start of a batch run is
not restricted to Idle tasks — a task still in the ERROR (Failed) state is
included directly, without any prior resetForRetry. -/
theorem pendingSnapshot_contains_failed_cex :
    errTaskC7 ∈ pendingSnapshot [errTaskC7] ∧
      errTaskC7.status ≠ TaskStatus.IDLE := by
  constructor
  · simp [pendingSnapshot, errTaskC7]
  · simp [errTaskC7]

/-- C7 amended: the snapshot of pending tasks taken at the start of a batch
run contains exactly the tasks whose status is Idle or Failed at call time;
the retry-all-failed operation first applies resetForRetry to every Failed
task (returning it to Idle with errorMessage cleared and progress 0) and
then starts a fresh scheduling pass over the reset store. -/
theorem pendingSnapshot_spec (st : List VideoTask)
    (R : VideoTask → ResolveResult) :
    (∀ t, t ∈ pendingSnapshot st ↔
      t ∈ st ∧ (t.status = TaskStatus.IDLE ∨ t.status = TaskStatus.ERROR)) ∧
    (∀ t ∈ st.map resetIfError, t.status ≠ TaskStatus.ERROR) ∧
    (∀ t ∈ st, t.status = TaskStatus.ERROR →
      (resetIfError t).status = TaskStatus.IDLE ∧
        (resetIfError t).errorMessage = none ∧ (resetIfError t).progress = 0) ∧
    handleRetryAllErrors st R = processBatch (st.map resetIfError) R := by
  refine ⟨fun t => ?_, ?_, ?_, rfl⟩
  · simp [pendingSnapshot, List.mem_filter]
  · intro t ht
    rw [List.mem_map] at ht
    obtain ⟨s, hs, rfl⟩ := ht
    by_cases h : s.status = TaskStatus.ERROR <;> simp [resetIfError, h]
  · intro t _ h
    simp [resetIfError, h]

/-- C5: fetchWithProxies tries the fixed ordered strategy list whose last
entry is the identity URL, arms the per-kind timeout (8s for json
metadata, 15s for blobs) on every attempt, absorbs each per-strategy
failure, and returns the first successfully parsed or decoded payload
without issuing any further attempt. -/
theorem relay_first_success (u : String) (kind : FetchKind) (env : FetchEnv)
    (j : Nat) (p : Payload) (hj : j < 4)
    (hfail : ∀ i, i < j → stratParse kind (env.strat i) = none)
    (hsucc : stratParse kind (env.strat j) = some p) :
    fetchWithProxies u kind env =
      (.ok p, (List.range (j + 1)).map fun i => ⟨proxyUrl u i, some (timeoutFor kind)⟩) ∧
    proxyUrl u 3 = u ∧ timeoutFor .json = 8000 ∧ timeoutFor .blob = 15000 := by
  refine ⟨?_, rfl, rfl, rfl⟩
  interval_cases j <;>
    simp_all [fetchWithProxies, runStrategies, List.range_succ,
      hfail 0, hfail 1, hfail 2]

/-- C5 witness: with only the third strategy
succeeding, the fetch returns its payload after exactly three attempts. -/
theorem relay_first_success_witness :
    (2 : Nat) < 4 ∧ (∀ i, i < 2 → stratParse .json (envC5.strat i) = none) ∧
    stratParse .json (envC5.strat 2) = some payloadC5 ∧
    (fetchWithProxies "https://x" .json envC5 =
      (.ok payloadC5,
        (List.range 3).map fun i => ⟨proxyUrl "https://x" i, some (timeoutFor .json)⟩) ∧
     proxyUrl "https://x" 3 = "https://x" ∧
     timeoutFor .json = 8000 ∧ timeoutFor .blob = 15000) :=
  ⟨by omega, by decide, by decide,
    relay_first_success "https://x" .json envC5 2 payloadC5 (by omega)
      (by decide) (by decide)⟩

/-- C4 counterexample: when every transform fails and the unwrapped
envelope content is unparseable, fetchWithProxies does not treat the fetch
as a failure — it returns the raw undecoded string as the payload
(aiService.ts line 80), so an undecoded result does reach the caller. -/
theorem wrapped_fallback_raw_cex :
    (fetchWithProxies "https://t" .json envC4).1 = .ok (.raw "not json at all") ∧
    ¬∃ m, (fetchWithProxies "https://t" .json envC4).1 = .err m := by
  refine ⟨rfl, ?_⟩
  rintro ⟨m, hm⟩
  rw [show (fetchWithProxies "https://t" .json envC4).1
      = .ok (.raw "not json at all") from rfl] at hm
  exact FetchResult.noConfusion hm

/-- C4 amended: when every ordered transform fails on a Metadata fetch,
fetchWithProxies attempts exactly one additional wrapped relay; if the
envelope's string field is present and non-empty it is parsed, the parsed
payload being returned on success and the raw unparsed string itself being
returned otherwise; AllRelaysExhausted is signalled only when the wrapped
request errs, is non-ok, or the string field is absent or empty. -/
theorem wrapped_fallback_behavior (u : String) (env : FetchEnv)
    (hfail : ∀ i, i < 4 → stratParse .json (env.strat i) = none) :
    (fetchWithProxies u .json env).2 =
      ((List.range 4).map fun i => ⟨proxyUrl u i, some (timeoutFor .json)⟩) ++
        [⟨wrappedUrl u, none⟩] ∧
    (fetchWithProxies u .json env).1 =
      (match env.fallback with
       | .contents s parsed =>
         if s = "" then .err proxiesErrorMsg
         else
           match parsed with
           | some p => .ok p
           | none => .ok (.raw s)
       | _ => .err proxiesErrorMsg) := by
  have h0 := hfail 0 (by omega)
  have h1 := hfail 1 (by omega)
  have h2 := hfail 2 (by omega)
  have h3 := hfail 3 (by omega)
  constructor <;>
  · cases hfb : env.fallback with
    | contents s parsed =>
      by_cases hs : s = "" <;> cases parsed <;>
        simp [fetchWithProxies, runStrategies, h0, h1, h2, h3, hfb, hs,
          List.range_succ]
    | netErr =>
      simp [fetchWithProxies, runStrategies, h0, h1, h2, h3, hfb,
        List.range_succ]
    | notOk =>
      simp [fetchWithProxies, runStrategies, h0, h1, h2, h3, hfb,
        List.range_succ]
    | noContents =>
      simp [fetchWithProxies, runStrategies, h0, h1, h2, h3, hfb,
        List.range_succ]

/-- C4 witness: the amended behavior at the all-fail environment with an
unparseable envelope. -/
theorem wrapped_fallback_behavior_witness :
    (∀ i, i < 4 → stratParse .json (envC4.strat i) = none) ∧
    ((fetchWithProxies "https://t" .json envC4).2 =
      ((List.range 4).map fun i => ⟨proxyUrl "https://t" i, some (timeoutFor .json)⟩) ++
        [⟨wrappedUrl "https://t", none⟩] ∧
     (fetchWithProxies "https://t" .json envC4).1 =
      (match envC4.fallback with
       | .contents s parsed =>
         if s = "" then .err proxiesErrorMsg
         else
           match parsed with
           | some p => .ok p
           | none => .ok (.raw s)
       | _ => .err proxiesErrorMsg)) :=
  ⟨by decide, wrapped_fallback_behavior "https://t" envC4 (by decide)⟩

/-- Every error fetchWithProxies throws carries the fixed message. -/
theorem fetch_err_msg (u : String) (kind : FetchKind) (env : FetchEnv)
    (m : String) (h : (fetchWithProxies u kind env).1 = .err m) :
    m = proxiesErrorMsg := by
  simp only [fetchWithProxies] at h
  cases hr : (runStrategies u kind env [0, 1, 2, 3]).1 with
  | some p => simp [hr] at h
  | none =>
    cases kind with
    | blob => simp [hr] at h; exact h.symm
    | json =>
      cases hfb : env.fallback with
      | contents s parsed =>
        by_cases hs : s = "" <;> cases parsed <;> simp [hr, hfb, hs] at h <;>
          exact h.symm
      | netErr => simp [hr, hfb] at h; exact h.symm
      | notOk => simp [hr, hfb] at h; exact h.symm
      | noContents => simp [hr, hfb] at h; exact h.symm

/-- The message fetchWithProxies throws never matches "limit". -/
theorem proxiesErrorMsg_no_limit : containsLimit proxiesErrorMsg = false := by
  decide

/-- A rate-limited fetch outcome is always a returned payload: a thrown
fetch error never matches "limit" because its message is fixed. -/
theorem rateLimited_ok (u : String) (kind : FetchKind) (env : FetchEnv)
    (h : rateLimited (fetchWithProxies u kind env).1 = true) :
    ∃ p, (fetchWithProxies u kind env).1 = .ok p ∧
      payloadSuccess p = false ∧ rlPayload p = true := by
  cases hr : (fetchWithProxies u kind env).1 with
  | ok p =>
    rw [hr] at h
    simp only [rateLimited, Bool.and_eq_true, Bool.not_eq_true'] at h
    exact ⟨p, rfl, h.1, h.2⟩
  | err m =>
    rw [hr] at h
    rw [fetch_err_msg u kind env m hr] at h
    simp only [rateLimited] at h
    rw [proxiesErrorMsg_no_limit] at h
    exact absurd h (by simp)

/-- Shape of a payload satisfying the rate-limit test. -/
theorem rlPayload_shape (p : Payload) (h : rlPayload p = true) :
    ∃ m, payloadMsg p = some m ∧ m ≠ "" ∧ containsLimit m = true ∧
      throwMsg p = m := by
  cases p with
  | json c d msg =>
    cases msg with
    | none => simp [rlPayload] at h
    | some m =>
      simp only [rlPayload, Bool.and_eq_true, bne_iff_ne, Bool.not_eq_true',
        beq_eq_false_iff_ne, ne_eq] at h
      exact ⟨m, rfl, h.1, h.2, by simp [throwMsg, h.1]⟩
  | raw s => simp [rlPayload] at h
  | blob b => simp [rlPayload] at h

/-- One rate-limited resolver step below the retry bound performs the try
branch's backoff and recursion. -/
theorem resolve_rl_step (url : String) (env : Nat → FetchEnv) (k : Nat)
    (hk : k < 3)
    (hrl : rateLimited (fetchWithProxies (apiUrl url) .json (env k)).1 = true) :
    resolveVideoData url env k =
      ((resolveVideoData url env (k + 1)).1,
        ⟨(resolveVideoData url env (k + 1)).2.attempts + 1,
          (2000 + k * 1000) :: (resolveVideoData url env (k + 1)).2.delays⟩) := by
  obtain ⟨p, hp, hps, hrlp⟩ := rateLimited_ok _ _ _ hrl
  rw [resolveVideoData, hp]
  simp only [hps, Bool.false_eq_true, if_false]
  rw [dif_pos ⟨hrlp, hk⟩]

/-- C8: whenever the fetch outcome at recursion depth `attempt < 3` is
classified RateLimited — which can only arise from a well-formed payload
whose failure message matches the case-insensitive "limit" substring,
since a relay-exhaustion error carries a fixed message not matching it —
the resolver waits exactly 2000 + attempt * 1000 milliseconds and then
recurses with attempt + 1. -/
theorem rate_limit_backoff (url : String) (env : Nat → FetchEnv) (k : Nat)
    (hk : k < 3)
    (hrl : rateLimited (fetchWithProxies (apiUrl url) .json (env k)).1 = true) :
    resolveVideoData url env k =
      ((resolveVideoData url env (k + 1)).1,
        ⟨(resolveVideoData url env (k + 1)).2.attempts + 1,
          (2000 + k * 1000) :: (resolveVideoData url env (k + 1)).2.delays⟩) :=
  resolve_rl_step url env k hk hrl

/-- Terminal step of the resolver at a rate-limited fourth attempt: the
retry guard fails and the provider's message is rethrown. -/
theorem resolve_terminal (url : String) (env : Nat → FetchEnv) (p : Payload)
    (m : String) (hp : (fetchWithProxies (apiUrl url) .json (env 3)).1 = .ok p)
    (hps : payloadSuccess p = false) (hm : payloadMsg p = some m)
    (hm0 : m ≠ "") : resolveVideoData url env 3 = (.err m, ⟨1, []⟩) := by
  have hthrow : throwMsg p = m := by
    cases p with
    | json c d msg =>
      cases msg with
      | none => simp [payloadMsg] at hm
      | some m' =>
        simp only [payloadMsg, Option.some.injEq] at hm
        subst hm
        simp [throwMsg, hm0]
    | raw s => simp [payloadMsg] at hm
    | blob b => simp [payloadMsg] at hm
  rw [resolveVideoData, hp]
  simp only [hps, Bool.false_eq_true, if_false]
  rw [dif_neg (by omega), dif_neg (by omega), hthrow]
  simp [fallbackErr, hm0]

/-- C1: for a source whose every resolution attempt is classified
RateLimited, the resolver performs exactly 3 delayed retries — 4 fetch
attempts in total, with backoffs 2000, 3000 and 4000 ms — and the fourth
rate-limited outcome surfaces as a resolution failure carrying the
provider's message; no further attempt is made. -/
theorem retry_bound (url : String) (env : Nat → FetchEnv)
    (hrl : ∀ n, rateLimited (fetchWithProxies (apiUrl url) .json (env n)).1 = true) :
    (resolveVideoData url env 0).2.attempts = 4 ∧
    (resolveVideoData url env 0).2.delays = [2000, 3000, 4000] ∧
    ∃ p m, (fetchWithProxies (apiUrl url) .json (env 3)).1 = .ok p ∧
      payloadMsg p = some m ∧ (resolveVideoData url env 0).1 = .err m := by
  obtain ⟨p, hp, hps, hrlp⟩ := rateLimited_ok _ _ _ (hrl 3)
  obtain ⟨m, hm, hm0, _, _⟩ := rlPayload_shape p hrlp
  have h3 : resolveVideoData url env 3 = (.err m, ⟨1, []⟩) :=
    resolve_terminal url env p m hp hps hm hm0
  have h2 := resolve_rl_step url env 2 (by omega) (hrl 2)
  have h1 := resolve_rl_step url env 1 (by omega) (hrl 1)
  have h0 := resolve_rl_step url env 0 (by omega) (hrl 0)
  rw [h3] at h2
  rw [h2] at h1
  rw [h1] at h0
  rw [h0]
  exact ⟨rfl, by norm_num, p, m, hp, hm, rfl⟩

/-- C8 witness: rate_limit_backoff at attempt 0 of a rate-limited source. -/
theorem rate_limit_backoff_witness :
    (0 : Nat) < 3 ∧
    rateLimited (fetchWithProxies (apiUrl "https://v") .json envRL).1 = true ∧
    resolveVideoData "https://v" (fun _ => envRL) 0 =
      ((resolveVideoData "https://v" (fun _ => envRL) 1).1,
        ⟨(resolveVideoData "https://v" (fun _ => envRL) 1).2.attempts + 1,
          (2000 + 0 * 1000) :: (resolveVideoData "https://v" (fun _ => envRL) 1).2.delays⟩) :=
  ⟨by omega, by decide,
    rate_limit_backoff "https://v" (fun _ => envRL) 0 (by omega) (by decide)⟩

/-- C1 witness: retry_bound on a continuously rate-limited source. -/
theorem retry_bound_witness :
    (∀ n : Nat,
      rateLimited (fetchWithProxies (apiUrl "https://v") .json ((fun _ => envRL) n)).1 = true) ∧
    ((resolveVideoData "https://v" (fun _ => envRL) 0).2.attempts = 4 ∧
     (resolveVideoData "https://v" (fun _ => envRL) 0).2.delays = [2000, 3000, 4000] ∧
     ∃ p m,
       (fetchWithProxies (apiUrl "https://v") .json ((fun _ => envRL) 3)).1 = .ok p ∧
       payloadMsg p = some m ∧
       (resolveVideoData "https://v" (fun _ => envRL) 0).1 = .err m) :=
  ⟨fun _ => show rateLimited (fetchWithProxies (apiUrl "https://v") .json envRL).1 = true
      by decide,
    retry_bound "https://v" (fun _ => envRL)
      (fun _ => show rateLimited (fetchWithProxies (apiUrl "https://v") .json envRL).1 = true
        by decide)⟩

/-- The scheduler's event trace is the group-start events interleaved with
single 1300 ms pacing delays. -/
theorem processChunks_trace (R : VideoTask → ResolveResult)
    (cs : List (List VideoTask)) (st : List VideoTask) :
    (processChunks R cs st).2 =
      List.intersperse (.delay 1300) (cs.map fun c => BatchEvent.group c.length) := by
  induction cs generalizing st with
  | nil => rfl
  | cons c cs ih =>
    rw [show (processChunks R (c :: cs) st).2
        = BatchEvent.group c.length ::
          (if cs.isEmpty then
            (processChunks R cs
              (List.foldl (fun s t => applyOutcome s t.id (R t) "Failed to fetch.")
                (markChunkDownloading st c) c)).2
           else BatchEvent.delay 1300 ::
            (processChunks R cs
              (List.foldl (fun s t => applyOutcome s t.id (R t) "Failed to fetch.")
                (markChunkDownloading st c) c)).2) from rfl]
    rw [ih]
    cases cs with
    | nil => simp [List.intersperse]
    | cons c' cs' => simp [List.intersperse]

/-- Counting the pacing delays in an interleaved trace. -/
theorem delay_count (cs : List (List VideoTask)) :
    (List.intersperse (BatchEvent.delay 1300)
        (cs.map fun c => BatchEvent.group c.length)).countP
      (fun e => e == BatchEvent.delay 1300) = cs.length - 1 := by
  match cs with
  | [] => rfl
  | [_] => rfl
  | c :: c' :: cs =>
    have ih := delay_count (c' :: cs)
    simp only [List.map_cons, List.intersperse] at ih ⊢
    simp [List.countP_cons, ih]

/-- C9: during a batch run over G groups a pacing delay of 1300 ms is
awaited between every pair of consecutive groups — G - 1 delays in total,
none after the last group (the trace is the group starts interleaved with
single delays) — and in particular a batch of 3 pending tasks with group
size 1 yields two 1300 ms delays between the starts of groups 1 and 3. -/
theorem batch_pacing (st : List VideoTask) (R : VideoTask → ResolveResult) :
    (processBatch st R).2 =
      List.intersperse (.delay 1300)
        ((chunksOf BATCH_SIZE (pendingSnapshot st)).map fun c => BatchEvent.group c.length) ∧
    (processBatch st R).2.countP (fun e => e == BatchEvent.delay 1300) =
      (chunksOf BATCH_SIZE (pendingSnapshot st)).length - 1 ∧
    (processBatch [idleTask 0, idleTask 1, idleTask 2] R).2 =
      [.group 1, .delay 1300, .group 1, .delay 1300, .group 1] := by
  refine ⟨processChunks_trace R _ st, ?_, ?_⟩
  · show (processChunks R (chunksOf BATCH_SIZE (pendingSnapshot st)) st).2.countP _ = _
    rw [processChunks_trace R _ st]
    exact delay_count _
  · rw [show (processBatch [idleTask 0, idleTask 1, idleTask 2] R).2 =
        List.intersperse (.delay 1300)
          ((chunksOf BATCH_SIZE (pendingSnapshot [idleTask 0, idleTask 1, idleTask 2])).map
            fun c => BatchEvent.group c.length) from processChunks_trace R _ _]
    have hp : pendingSnapshot [idleTask 0, idleTask 1, idleTask 2] =
        [idleTask 0, idleTask 1, idleTask 2] := by
      simp [pendingSnapshot, idleTask]
    rw [hp]
    rw [show chunksOf BATCH_SIZE [idleTask 0, idleTask 1, idleTask 2] =
        [[idleTask 0], [idleTask 1], [idleTask 2]] by
      simp [chunksOf, BATCH_SIZE]]
    rfl

theorem resolvedTask_id (t : VideoTask) (r : ResolveResult) (dflt : String) :
    (resolvedTask t r dflt).id = t.id := by
  cases r <;> rfl

theorem chunksOf_one (l : List α) : chunksOf 1 l = l.map fun x => [x] := by
  induction l with
  | nil => simp [chunksOf]
  | cons x xs ih => rw [chunksOf]; simpa using ih

theorem processChunks_singletons (R : VideoTask → ResolveResult)
    (l st : List VideoTask) :
    (processChunks R (l.map fun x => [x]) st).1 = l.foldl (stepOne R) st := by
  induction l generalizing st with
  | nil => rfl
  | cons x xs ih =>
    rw [show (processChunks R ((x :: xs).map fun y => [y]) st).1
        = (processChunks R (xs.map fun y => [y])
            (List.foldl (fun s t => applyOutcome s t.id (R t) "Failed to fetch.")
              (markChunkDownloading st [x]) [x])).1 from rfl]
    rw [ih]
    rfl

/-- The single-task step acts as a by-id map over the store. -/
theorem stepOne_eq_map (R : VideoTask → ResolveResult) (s : List VideoTask)
    (x : VideoTask) :
    stepOne R s x = s.map fun t =>
      if t.id == x.id then resolvedTask t (R x) "Failed to fetch." else t := by
  unfold stepOne applyOutcome markChunkDownloading
  cases R x with
  | ok d =>
    dsimp only
    rw [List.map_map]
    refine List.map_congr_left fun t _ => ?_
    by_cases h : t.id = x.id
    · simp [Function.comp, h, markTask, completeTask, resolvedTask]
    · simp [Function.comp, h, Ne.symm h]
  | err m =>
    dsimp only
    rw [List.map_map]
    refine List.map_congr_left fun t _ => ?_
    by_cases h : t.id = x.id
    · simp [Function.comp, h, markTask, failTask, resolvedTask]
    · simp [Function.comp, h, Ne.symm h]

/-- Lookup by id through an id-preserving map. -/
theorem find?_map_id (g : VideoTask → VideoTask) (hg : ∀ t, (g t).id = t.id)
    (s : List VideoTask) (n : Nat) :
    (s.map g).find? (fun t => t.id == n) =
      Option.map g (s.find? (fun t => t.id == n)) := by
  have hpe : ((fun t => t.id == n) ∘ g) = fun t : VideoTask => t.id == n :=
    funext fun t => by simp [Function.comp, hg t]
  rw [List.find?_map, hpe]

/-- Lookup by id after a single-task step touching a different id. -/
theorem stepOne_find?_other (R : VideoTask → ResolveResult)
    (s : List VideoTask) (x : VideoTask) (n : Nat) (hn : x.id ≠ n) :
    (stepOne R s x).find? (fun t => t.id == n) =
      s.find? (fun t => t.id == n) := by
  rw [stepOne_eq_map]
  rw [find?_map_id _ (fun t => by by_cases h : t.id = x.id <;> simp [h, resolvedTask_id])]
  cases hf : s.find? (fun t => t.id == n) with
  | none => rfl
  | some y =>
    have hy : y.id = n := by simpa using List.find?_some hf
    simp [hy, Ne.symm hn]

/-- Processing tasks with other ids leaves a record's lookup unchanged. -/
theorem find?_foldl_frame (R : VideoTask → ResolveResult)
    (ts : List VideoTask) (s : List VideoTask) (n : Nat)
    (h : ∀ x ∈ ts, x.id ≠ n) :
    (ts.foldl (stepOne R) s).find? (fun t => t.id == n) =
      s.find? (fun t => t.id == n) := by
  induction ts generalizing s with
  | nil => rfl
  | cons x xs ih =>
    rw [List.foldl_cons, ih _ fun y hy => h y (List.mem_cons_of_mem x hy)]
    exact stepOne_find?_other R s x n (h x (List.mem_cons_self x xs))

/-- Lookup by id after the task's own single-task step. -/
theorem stepOne_find?_self (R : VideoTask → ResolveResult)
    (s : List VideoTask) (x : VideoTask)
    (hfind : s.find? (fun t => t.id == x.id) = some x) :
    (stepOne R s x).find? (fun t => t.id == x.id) =
      some (resolvedTask x (R x) "Failed to fetch.") := by
  rw [stepOne_eq_map]
  rw [find?_map_id _ (fun t => by by_cases h : t.id = x.id <;> simp [h, resolvedTask_id])]
  rw [hfind]
  simp

/-- With pairwise distinct ids around it, a pending task's final record is
exactly its own mark-then-outcome transition. -/
theorem find?_foldl_mid (R : VideoTask → ResolveResult)
    (before after : List VideoTask) (s : List VideoTask) (x : VideoTask)
    (hb : ∀ b ∈ before, b.id ≠ x.id) (ha : ∀ a ∈ after, a.id ≠ x.id)
    (hfind : s.find? (fun t => t.id == x.id) = some x) :
    ((before ++ x :: after).foldl (stepOne R) s).find? (fun t => t.id == x.id)
      = some (resolvedTask x (R x) "Failed to fetch.") := by
  rw [List.foldl_append, List.foldl_cons]
  rw [find?_foldl_frame R after _ _ ha]
  apply stepOne_find?_self
  rw [find?_foldl_frame R before _ _ hb]
  exact hfind

/-- In a store with pairwise distinct ids, two members sharing an id coincide. -/
theorem same_id_unique (st : List VideoTask)
    (hn : (st.map VideoTask.id).Nodup) (a b : VideoTask)
    (ha : a ∈ st) (hb : b ∈ st) (hid : a.id = b.id) : a = b := by
  induction st with
  | nil => cases ha
  | cons h tl ih =>
    rw [List.map_cons, List.nodup_cons] at hn
    rcases List.mem_cons.1 ha with rfl | ha' <;>
      rcases List.mem_cons.1 hb with rfl | hb'
    · rfl
    · exact absurd (hid ▸ List.mem_map_of_mem VideoTask.id hb') hn.1
    · exact absurd (hid ▸ List.mem_map_of_mem VideoTask.id ha') (by simpa using hn.1)
    · exact ih hn.2 ha' hb'

/-- In a store with pairwise distinct ids, lookup by a member's id finds it. -/
theorem find?_self (st : List VideoTask)
    (hn : (st.map VideoTask.id).Nodup) (t : VideoTask) (ht : t ∈ st) :
    st.find? (fun x => x.id == t.id) = some t := by
  induction st with
  | nil => cases ht
  | cons h tl ih =>
    rw [List.map_cons, List.nodup_cons] at hn
    rcases List.mem_cons.1 ht with rfl | ht'
    · rw [List.find?_cons_of_pos _ (by simp)]
    · have hne : h.id ≠ t.id := fun hc =>
        hn.1 (hc ▸ List.mem_map_of_mem VideoTask.id ht')
      rw [List.find?_cons_of_neg _ (by simp [hne])]
      exact ih hn.2 ht'

/-- C6: in a batch run over a store with pairwise distinct ids, the final
record of every snapshot member is determined solely by that member and
its own resolution outcome — a sibling's failure cannot influence it: the
member reaches COMPLETED exactly when its own resolution succeeds, and a
failure is recorded only on the task that failed. -/
theorem batch_outcome_isolation (st : List VideoTask)
    (R : VideoTask → ResolveResult)
    (hnodup : (st.map VideoTask.id).Nodup)
    (t : VideoTask) (ht : t ∈ pendingSnapshot st) :
    ((processBatch st R).1).find? (fun x => x.id == t.id)
      = some (resolvedTask t (R t) "Failed to fetch.") ∧
    (∀ d, R t = .ok d →
      (resolvedTask t (R t) "Failed to fetch.").status = TaskStatus.COMPLETED ∧
      (resolvedTask t (R t) "Failed to fetch.").errorMessage = none) ∧
    (∀ m, R t = .err m →
      (resolvedTask t (R t) "Failed to fetch.").status = TaskStatus.ERROR) := by
  refine ⟨?_, ?_, ?_⟩
  · have hred : (processBatch st R).1 = (pendingSnapshot st).foldl (stepOne R) st := by
      show (processChunks R (chunksOf BATCH_SIZE (pendingSnapshot st)) st).1 = _
      rw [show (BATCH_SIZE : Nat) = 1 from rfl, chunksOf_one]
      exact processChunks_singletons R _ st
    rw [hred]
    obtain ⟨before, after, heq⟩ := List.append_of_mem ht
    have hpn : ((pendingSnapshot st).map VideoTask.id).Nodup :=
      List.Nodup.sublist
        (List.Sublist.map VideoTask.id (List.filter_sublist st)) hnodup
    rw [heq] at hpn
    rw [heq]
    have hsplit : (∀ b ∈ before, b.id ≠ t.id) ∧ (∀ a ∈ after, a.id ≠ t.id) := by
      rw [List.map_append, List.map_cons, List.nodup_append] at hpn
      obtain ⟨_, h2, h3⟩ := hpn
      rw [List.nodup_cons] at h2
      refine ⟨fun b hb hc => ?_, fun a ha hc => ?_⟩
      · exact h3 (List.mem_map_of_mem _ hb) (by simp [hc])
      · exact h2.1 (hc ▸ List.mem_map_of_mem VideoTask.id ha)
    exact find?_foldl_mid R before after st t hsplit.1 hsplit.2
      (find?_self st hnodup t (List.mem_of_mem_filter ht))
  · intro d hR
    rw [hR]
    exact ⟨rfl, rfl⟩
  · intro m hR
    rw [hR]
    rfl

/-- C6 witness: a batch of three tasks where the second always fails; the
first task's record is its own success. -/
theorem batch_outcome_isolation_witness :
    (([idleTask 0, idleTask 1, idleTask 2].map VideoTask.id).Nodup) ∧
    idleTask 0 ∈ pendingSnapshot [idleTask 0, idleTask 1, idleTask 2] ∧
    (((processBatch [idleTask 0, idleTask 1, idleTask 2] failSecondR).1).find?
        (fun x => x.id == (idleTask 0).id)
      = some (resolvedTask (idleTask 0) (failSecondR (idleTask 0)) "Failed to fetch.") ∧
    (∀ d, failSecondR (idleTask 0) = .ok d →
      (resolvedTask (idleTask 0) (failSecondR (idleTask 0)) "Failed to fetch.").status
          = TaskStatus.COMPLETED ∧
      (resolvedTask (idleTask 0) (failSecondR (idleTask 0)) "Failed to fetch.").errorMessage
          = none) ∧
    (∀ m, failSecondR (idleTask 0) = .err m →
      (resolvedTask (idleTask 0) (failSecondR (idleTask 0)) "Failed to fetch.").status
          = TaskStatus.ERROR)) :=
  ⟨by decide, by decide,
    batch_outcome_isolation [idleTask 0, idleTask 1, idleTask 2] failSecondR
      (by decide) (idleTask 0) (by decide)⟩

/-- Folding chunk-by-chunk is folding over the whole list: the chunking of
the bulk download stage does not change which entries are filed. -/
theorem chunks_foldl {α β : Type} (n : Nat) (f : β → α → β) :
    ∀ (l : List α) (init : β),
      (chunksOf n l).foldl (fun acc c => c.foldl f acc) init = l.foldl f init
  | [], _ => by rw [chunksOf]; rfl
  | x :: xs, init => by
    rw [chunksOf, List.foldl_cons]
    rw [chunks_foldl n f (xs.drop (n - 1))]
    rw [← List.foldl_append]
    rw [List.cons_append, List.take_append_drop]
termination_by l => l.length
decreasing_by simp [List.length_drop]; omega

/-- Filing under a name absent from the folder appends the entry. -/
theorem zipFile_fresh (folder : List (String × ZipEntry)) (name : String)
    (e : ZipEntry) (h : ∀ p ∈ folder, p.1 ≠ name) :
    zipFile folder name e = folder ++ [(name, e)] := by
  unfold zipFile
  rw [if_neg]
  simp only [List.any_eq_true, beq_iff_eq, not_exists, not_and]
  exact fun p hp => h p hp

/-- The bulk step on a task with a truthy downloadUrl files its entry. -/
theorem bulkStep_truthy (B : VideoTask → Option String)
    (folder : List (String × ZipEntry)) (t : VideoTask)
    (htr : downloadUrlTruthy t = true) :
    bulkStep B folder t = zipFile folder (entryName B t) (entryVal B t) := by
  unfold bulkStep
  rw [if_neg (by simp [htr])]
  cases hB : B t <;> simp [entryName, entryVal, hB]

/-- Folding the bulk step over tasks with pairwise fresh entry names
appends one entry per task, in order. -/
theorem bulk_foldl (B : VideoTask → Option String) :
    ∀ (ts : List VideoTask) (folder : List (String × ZipEntry)),
      (∀ t ∈ ts, downloadUrlTruthy t = true) →
      ((folder.map Prod.fst) ++ ts.map (entryName B)).Nodup →
      ts.foldl (bulkStep B) folder =
        folder ++ ts.map fun t => (entryName B t, entryVal B t)
  | [], folder, _, _ => by simp
  | x :: ts, folder, htr, hnd => by
    have hfresh : ∀ p ∈ folder, p.1 ≠ entryName B x := by
      rw [List.map_cons, List.nodup_append] at hnd
      intro p hp hc
      exact hnd.2.2 (List.mem_map_of_mem Prod.fst hp) (by simp [hc])
    rw [List.foldl_cons, bulkStep_truthy B folder x (htr x (List.mem_cons_self x ts)),
      zipFile_fresh folder _ _ hfresh]
    rw [bulk_foldl B ts (folder ++ [(entryName B x, entryVal B x)])
      (fun t ht => htr t (List.mem_cons_of_mem x ht))
      (by simpa [List.append_assoc] using hnd)]
    simp

/-- C3 counterexample: two completed tasks sharing the title "demo" both
fetch successfully, yet the archive holds a single entry — JSZip files by
name and the second write replaces the first — so the entry count is not
the input count. -/
theorem archive_entry_collision_cex :
    ([doneTask 0 "demo", doneTask 1 "demo"] : List VideoTask).length = 2 ∧
    (handleBulkDownload [doneTask 0 "demo", doneTask 1 "demo"]
        (fun _ => some "bytes")).length = 1 := by
  refine ⟨rfl, ?_⟩
  show ((chunksOf DOWNLOAD_BATCH
      ([doneTask 0 "demo", doneTask 1 "demo"].filter fun t =>
        t.status == TaskStatus.COMPLETED && downloadUrlTruthy t)).foldl
      (fun folder c => c.foldl (bulkStep fun _ => some "bytes") folder) []).length = 1
  rw [show ([doneTask 0 "demo", doneTask 1 "demo"].filter fun t =>
        t.status == TaskStatus.COMPLETED && downloadUrlTruthy t)
      = [doneTask 0 "demo", doneTask 1 "demo"] from by decide]
  rw [show chunksOf DOWNLOAD_BATCH [doneTask 0 "demo", doneTask 1 "demo"]
      = [[doneTask 0 "demo", doneTask 1 "demo"]] from by simp [chunksOf, DOWNLOAD_BATCH]]
  decide

/-- C3 amended: on a set of completed tasks (each carrying a truthy
downloadUrl) whose derived entry filenames are pairwise distinct, the bulk
download produces exactly one archive entry per input task, in order — the
media file for a task whose binary fetch succeeds, the plain-text
placeholder for a task whose fetch fails — never aborting the archive;
tasks whose sanitized filenames collide are filed under one name, the
later write replacing the earlier. -/
theorem archive_entries (tasks : List VideoTask) (B : VideoTask → Option String)
    (hc : ∀ t ∈ tasks, t.status = TaskStatus.COMPLETED ∧ downloadUrlTruthy t = true)
    (hn : (tasks.map (entryName B)).Nodup) :
    handleBulkDownload tasks B = (tasks.map fun t => (entryName B t, entryVal B t)) ∧
    (handleBulkDownload tasks B).length = tasks.length ∧
    (∀ t b, B t = some b → entryVal B t = ZipEntry.media b) ∧
    (∀ t, B t = none → entryVal B t =
      ZipEntry.placeholder ("Failed to download: " ++ t.url ++ "\n" ++
        "Error: Could not fetch video data via proxies.")) := by
  have hfilter : tasks.filter (fun t =>
      t.status == TaskStatus.COMPLETED && downloadUrlTruthy t) = tasks :=
    List.filter_eq_self.mpr fun t ht => by
      obtain ⟨h1, h2⟩ := hc t ht
      simp [h1, h2]
  have hmain : handleBulkDownload tasks B =
      (tasks.map fun t => (entryName B t, entryVal B t)) := by
    show (chunksOf DOWNLOAD_BATCH (tasks.filter fun t =>
        t.status == TaskStatus.COMPLETED && downloadUrlTruthy t)).foldl
      (fun folder c => c.foldl (bulkStep B) folder) [] = _
    rw [hfilter, chunks_foldl DOWNLOAD_BATCH (bulkStep B) tasks []]
    simpa using bulk_foldl B tasks [] (fun t ht => (hc t ht).2) (by simpa using hn)
  refine ⟨hmain, by rw [hmain]; simp, fun t b hB => by simp [entryVal, hB],
    fun t hB => by simp [entryVal, hB]⟩

/-- C3 witness: two completed tasks with distinct titles, one fetch
succeeding and one failing, yield two entries — media and placeholder. -/
theorem archive_entries_witness :
    (∀ t ∈ ([doneTask 0 "alpha", doneTask 1 "beta"] : List VideoTask),
      t.status = TaskStatus.COMPLETED ∧ downloadUrlTruthy t = true) ∧
    ([doneTask 0 "alpha", doneTask 1 "beta"].map (entryName bulkOracle)).Nodup ∧
    (handleBulkDownload [doneTask 0 "alpha", doneTask 1 "beta"] bulkOracle =
      ([doneTask 0 "alpha", doneTask 1 "beta"].map fun t =>
        (entryName bulkOracle t, entryVal bulkOracle t)) ∧
    (handleBulkDownload [doneTask 0 "alpha", doneTask 1 "beta"] bulkOracle).length
      = ([doneTask 0 "alpha", doneTask 1 "beta"] : List VideoTask).length ∧
    (∀ t b, bulkOracle t = some b → entryVal bulkOracle t = ZipEntry.media b) ∧
    (∀ t, bulkOracle t = none → entryVal bulkOracle t =
      ZipEntry.placeholder ("Failed to download: " ++ t.url ++ "\n" ++
        "Error: Could not fetch video data via proxies."))) :=
  ⟨by decide, by decide,
    archive_entries [doneTask 0 "alpha", doneTask 1 "beta"] bulkOracle
      (by decide) (by decide)⟩

theorem resolvedTask_inv (t : VideoTask) (r : ResolveResult) (dflt : String)
    (hdl : t.downloadUrl = none) (hdflt : dflt ≠ "") :
    TaskInv (resolvedTask t r dflt) := by
  cases r with
  | ok d =>
    refine ⟨fun _ => rfl, ?_⟩
    simp [resolvedTask, completeTask, markTask, TaskInv]
  | err m =>
    constructor
    · intro hs
      rw [show (resolvedTask t (ResolveResult.err m) dflt).downloadUrl
          = t.downloadUrl from rfl, hdl] at hs
      cases hs
    · constructor
      · intro _
        rfl
      · intro _
        refine ⟨if m = "" then dflt else m, rfl, ?_⟩
        by_cases hm : m = "" <;> simp [hm, hdflt]

theorem stepOne_ids (R : VideoTask → ResolveResult) (s : List VideoTask)
    (x : VideoTask) :
    (stepOne R s x).map VideoTask.id = s.map VideoTask.id := by
  rw [stepOne_eq_map, List.map_map]
  exact List.map_congr_left fun t _ => by
    by_cases h : t.id = x.id <;> simp [Function.comp, h, resolvedTask_id]

/-- Invariant preservation along the fold of singleton batch steps. -/
theorem foldl_inv (R : VideoTask → ResolveResult) :
    ∀ (ts s : List VideoTask),
      (∀ t ∈ s, TaskInv t) →
      ((ts.map VideoTask.id).Nodup) →
      (∀ x ∈ ts, ∀ t ∈ s, t.id = x.id → t.downloadUrl = none) →
      (∀ t ∈ ts.foldl (stepOne R) s, TaskInv t) ∧
        (ts.foldl (stepOne R) s).map VideoTask.id = s.map VideoTask.id
  | [], s, hInv, _, _ => ⟨hInv, rfl⟩
  | x :: ts, s, hInv, hnd, hdl => by
    rw [List.map_cons, List.nodup_cons] at hnd
    have hInv' : ∀ t ∈ stepOne R s x, TaskInv t := by
      rw [stepOne_eq_map]
      intro t' ht'
      rw [List.mem_map] at ht'
      obtain ⟨t, ht, rfl⟩ := ht'
      by_cases h : t.id = x.id
      · simp only [h, beq_self_eq_true, if_true]
        exact resolvedTask_inv t (R x) _
          (hdl x (List.mem_cons_self x ts) t ht h) (by simp)
      · simp only [beq_iff_eq, h, if_false]
        exact hInv t ht
    have hdl' : ∀ x' ∈ ts, ∀ t ∈ stepOne R s x, t.id = x'.id → t.downloadUrl = none := by
      rw [stepOne_eq_map]
      intro x' hx' t' ht' hid
      rw [List.mem_map] at ht'
      obtain ⟨t, ht, rfl⟩ := ht'
      by_cases h : t.id = x.id
      · exfalso
        simp only [h, beq_self_eq_true, if_true, resolvedTask_id] at hid
        exact hnd.1 (show x.id ∈ ts.map VideoTask.id from by
          rw [hid]; exact List.mem_map_of_mem _ hx')
      · simp only [beq_iff_eq, h, if_false] at hid ⊢
        exact hdl x' (List.mem_cons_of_mem x hx') t ht hid
    have ih := foldl_inv R ts (stepOne R s x) hInv' hnd.2 hdl'
    rw [List.foldl_cons]
    exact ⟨ih.1, ih.2.trans (stepOne_ids R s x)⟩

theorem newTasks_facts (links : List String) :
    ∀ (n : Nat), ∀ t ∈ newTasks n links,
      t.status = TaskStatus.IDLE ∧ t.downloadUrl = none ∧
        t.errorMessage = none ∧ n ≤ t.id ∧ t.id < n + links.length := by
  induction links with
  | nil => intro n t ht; cases ht
  | cons u ls ih =>
    intro n t ht
    rcases List.mem_cons.1 ht with rfl | ht'
    · refine ⟨rfl, rfl, rfl, le_refl n, ?_⟩
      show n < n + (u :: ls).length
      simp only [List.length_cons]
      omega
    · obtain ⟨h1, h2, h3, h4, h5⟩ := ih (n + 1) t ht'
      refine ⟨h1, h2, h3, by omega, ?_⟩
      simp only [List.length_cons]
      omega

theorem newTasks_ids_nodup (links : List String) :
    ∀ (n : Nat), ((newTasks n links).map VideoTask.id).Nodup := by
  induction links with
  | nil => intro n; simp [newTasks]
  | cons u ls ih =>
    intro n
    rw [newTasks, List.map_cons, List.nodup_cons]
    refine ⟨?_, ih (n + 1)⟩
    intro hmem
    rw [List.mem_map] at hmem
    obtain ⟨t, ht, hid⟩ := hmem
    have hid' : t.id = n := hid
    have := (newTasks_facts ls (n + 1) t ht).2.2.2.1
    omega

theorem addLinks_good (st : List VideoTask) (n : Nat) (links : List String)
    (hbound : ∀ t ∈ st, t.id < n) (hg : ListGood st) :
    (∀ t ∈ (addLinks st n links).1, t.id < (addLinks st n links).2) ∧
      ListGood (addLinks st n links).1 := by
  have hnew := newTasks_facts links n
  have hbound' : ∀ t ∈ (addLinks st n links).1, t.id < (addLinks st n links).2 := by
    intro t ht
    rcases List.mem_append.1 ht with h | h
    · have := hbound t h
      show t.id < n + links.length
      omega
    · have := (hnew t h).2.2.2.2
      show t.id < n + links.length
      omega
  have hnodup : ((addLinks st n links).1.map VideoTask.id).Nodup := by
    rw [show (addLinks st n links).1 = st ++ newTasks n links from rfl,
      List.map_append, List.nodup_append]
    refine ⟨hg.1, newTasks_ids_nodup links n, ?_⟩
    intro a ha hb
    rw [List.mem_map] at ha hb
    obtain ⟨t1, ht1, rfl⟩ := ha
    obtain ⟨t2, ht2, hid⟩ := hb
    have h1 := hbound t1 ht1
    have h2 := (hnew t2 ht2).2.2.2.1
    omega
  have hinv : ∀ t ∈ (addLinks st n links).1, TaskInv t := by
    intro t ht
    rcases List.mem_append.1 ht with h | h
    · exact hg.2 t h
    · obtain ⟨h1, h2, h3, _, _⟩ := hnew t h
      constructor
      · intro hs
        rw [h2] at hs
        cases hs
      · constructor
        · rintro ⟨m, hm, _⟩
          rw [h3] at hm
          cases hm
        · intro hs
          rw [h1] at hs
          cases hs
  exact ⟨hbound', hnodup, hinv⟩

theorem filter_good (p : VideoTask → Bool) (st : List VideoTask)
    (hg : ListGood st) : ListGood (st.filter p) :=
  ⟨List.Nodup.sublist (List.Sublist.map VideoTask.id (List.filter_sublist st)) hg.1,
    fun t ht => hg.2 t (List.mem_of_mem_filter ht)⟩

/-- A pending task of a well-formed store carries no downloadUrl. -/
theorem pending_no_downloadUrl (st : List VideoTask) (hg : ListGood st)
    (x : VideoTask) (hx : x ∈ pendingSnapshot st) (t : VideoTask) (ht : t ∈ st)
    (hid : t.id = x.id) : t.downloadUrl = none := by
  simp only [pendingSnapshot, List.mem_filter] at hx
  have hte : t = x := same_id_unique st hg.1 t x ht hx.1 hid
  subst hte
  have hst : t.status = TaskStatus.IDLE ∨ t.status = TaskStatus.ERROR := by
    rcases Bool.or_eq_true_iff.1 hx.2 with h | h
    · exact Or.inl (by simpa using h)
    · exact Or.inr (by simpa using h)
  cases hdl : t.downloadUrl with
  | none => rfl
  | some u =>
    have := (hg.2 t ht).1 (by simp [hdl])
    rcases hst with h | h <;> rw [h] at this <;> cases this

theorem processBatch_good (st : List VideoTask) (R : VideoTask → ResolveResult)
    (hg : ListGood st) :
    ListGood (processBatch st R).1 ∧
      (processBatch st R).1.map VideoTask.id = st.map VideoTask.id := by
  have hred : (processBatch st R).1 = (pendingSnapshot st).foldl (stepOne R) st := by
    show (processChunks R (chunksOf BATCH_SIZE (pendingSnapshot st)) st).1 = _
    rw [show (BATCH_SIZE : Nat) = 1 from rfl, chunksOf_one]
    exact processChunks_singletons R _ st
  have hpn : ((pendingSnapshot st).map VideoTask.id).Nodup :=
    List.Nodup.sublist (List.Sublist.map VideoTask.id (List.filter_sublist st)) hg.1
  have h := foldl_inv R (pendingSnapshot st) st hg.2 hpn
    (fun x hx t ht hid => pending_no_downloadUrl st hg x hx t ht hid)
  rw [hred]
  exact ⟨⟨h.2 ▸ hg.1, h.1⟩, h.2⟩

/-- The single retry acts as a by-id map over the store once the task is
looked up. -/
theorem singleRetry_eq_map (st : List VideoTask) (id : Nat)
    (R : VideoTask → ResolveResult) (task : VideoTask)
    (hf : st.find? (fun t => t.id == id) = some task) :
    handleSingleRetry st id R =
      st.map fun t => if t.id == id then resolvedTask t (R task) "Retry failed." else t := by
  unfold handleSingleRetry
  rw [hf]
  cases hR : R task with
  | ok d =>
    simp only [hR, applyOutcome]
    rw [List.map_map]
    refine List.map_congr_left fun t _ => ?_
    by_cases h : t.id = id
    · simp [Function.comp, h, markTask, completeTask, resolvedTask]
    · simp [Function.comp, h]
  | err m =>
    simp only [hR, applyOutcome]
    rw [List.map_map]
    refine List.map_congr_left fun t _ => ?_
    by_cases h : t.id = id
    · simp [Function.comp, h, markTask, failTask, resolvedTask]
    · simp [Function.comp, h]

theorem singleRetry_good (st : List VideoTask) (id : Nat)
    (R : VideoTask → ResolveResult) (hg : ListGood st)
    (hguard : ∃ t ∈ st, t.id = id ∧ t.status = TaskStatus.ERROR) :
    ListGood (handleSingleRetry st id R) ∧
      (handleSingleRetry st id R).map VideoTask.id = st.map VideoTask.id := by
  obtain ⟨t0, ht0, hid0, hst0⟩ := hguard
  cases hf : st.find? (fun t => t.id == id) with
  | none =>
    exfalso
    have := List.find?_eq_none.1 hf t0 ht0
    simp [hid0] at this
  | some task =>
    have htaskmem : task ∈ st := List.mem_of_find?_eq_some hf
    have htaskid : task.id = id := by simpa using List.find?_some hf
    have hte : t0 = task :=
      same_id_unique st hg.1 t0 task ht0 htaskmem (by rw [hid0, htaskid])
    have htaskdl : task.downloadUrl = none := by
      cases hdl : task.downloadUrl with
      | none => rfl
      | some u =>
        have := (hg.2 task htaskmem).1 (by simp [hdl])
        rw [← hte, hst0] at this
        cases this
    rw [singleRetry_eq_map st id R task hf]
    have hids : ((st.map fun t =>
        if t.id == id then resolvedTask t (R task) "Retry failed." else t).map
          VideoTask.id) = st.map VideoTask.id := by
      rw [List.map_map]
      exact List.map_congr_left fun t _ => by
        by_cases h : t.id = id <;> simp [Function.comp, h, resolvedTask_id]
    have hinv : ∀ t' ∈ (st.map fun t =>
        if t.id == id then resolvedTask t (R task) "Retry failed." else t),
        TaskInv t' := by
      intro t' ht'
      rw [List.mem_map] at ht'
      obtain ⟨t, ht, rfl⟩ := ht'
      by_cases h : t.id = id
      · have hteq : t = task := same_id_unique st hg.1 t task ht htaskmem
          (by rw [h, htaskid])
        simp only [h, beq_self_eq_true, if_true]
        exact resolvedTask_inv t (R task) _ (hteq ▸ htaskdl) (by simp)
      · simp only [beq_iff_eq, h, if_false]
        exact hg.2 t ht
    exact ⟨⟨hids ▸ hg.1, hinv⟩, hids⟩

theorem resetAll_good (st : List VideoTask) (hg : ListGood st) :
    ListGood (st.map resetIfError) ∧
      (st.map resetIfError).map VideoTask.id = st.map VideoTask.id := by
  have hids : (st.map resetIfError).map VideoTask.id = st.map VideoTask.id := by
    rw [List.map_map]
    exact List.map_congr_left fun t _ => by
      by_cases h : t.status = TaskStatus.ERROR <;> simp [Function.comp, resetIfError, h]
  refine ⟨⟨hids ▸ hg.1, ?_⟩, hids⟩
  intro t' ht'
  rw [List.mem_map] at ht'
  obtain ⟨t, ht, rfl⟩ := ht'
  by_cases h : t.status = TaskStatus.ERROR
  · have hdl : t.downloadUrl = none := by
      cases hdl : t.downloadUrl with
      | none => rfl
      | some u =>
        have := (hg.2 t ht).1 (by simp [hdl])
        rw [h] at this
        cases this
    simp only [resetIfError, h, beq_self_eq_true, if_true]
    refine ⟨fun hs => ?_, ⟨fun hm => ?_, fun hs => ?_⟩⟩
    · simp only [hdl] at hs
      simp at hs
    · obtain ⟨m, hm', _⟩ := hm
      simp at hm'
    · simp at hs
  · rw [show resetIfError t = t from by simp [resetIfError, h]]
    exact hg.2 t ht

theorem bound_of_ids_eq (l l' : List VideoTask) (n : Nat)
    (hids : l'.map VideoTask.id = l.map VideoTask.id)
    (hb : ∀ t ∈ l, t.id < n) : ∀ t ∈ l', t.id < n := by
  intro t ht
  have hmem : t.id ∈ l'.map VideoTask.id := List.mem_map_of_mem _ ht
  rw [hids, List.mem_map] at hmem
  obtain ⟨u, hu, he⟩ := hmem
  rw [← he]
  exact hb u hu

theorem listGood_nil : ListGood [] :=
  ⟨List.nodup_nil, fun t ht => absurd ht (List.not_mem_nil t)⟩

/-- Every reachable application state is well formed: ids are pairwise
distinct, bounded by the fresh-id counter, and every task satisfies the
data invariant. -/
theorem reach_good (s : AppState) (h : Reach s) :
    (∀ t ∈ s.tasks, t.id < s.nextId) ∧ ListGood s.tasks := by
  induction h with
  | init => exact ⟨fun t ht => absurd ht (List.not_mem_nil t), listGood_nil⟩
  | add s links _ ih => exact addLinks_good s.tasks s.nextId links ih.1 ih.2
  | remove s id _ ih =>
    exact ⟨fun t ht => ih.1 t (List.mem_of_mem_filter ht),
      filter_good _ s.tasks ih.2⟩
  | clear s _ ih =>
    exact ⟨fun t ht => ih.1 t (List.mem_of_mem_filter ht),
      filter_good _ s.tasks ih.2⟩
  | batch s R _ ih =>
    have h := processBatch_good s.tasks R ih.2
    exact ⟨bound_of_ids_eq s.tasks _ s.nextId h.2 ih.1, h.1⟩
  | retryOne s id R _ hguard ih =>
    have h := singleRetry_good s.tasks id R ih.2 hguard
    exact ⟨bound_of_ids_eq s.tasks _ s.nextId h.2 ih.1, h.1⟩
  | retryAll s R _ ih =>
    have h1 := resetAll_good s.tasks ih.2
    have h2 := processBatch_good (s.tasks.map resetIfError) R h1.1
    exact ⟨bound_of_ids_eq s.tasks _ s.nextId (h2.2.trans h1.2) ih.1, h2.1⟩

/-- C2: in every application state reachable through the exposed
operations — enqueue, batch run (whose per-item markResolving,
markCompleted and markFailed transitions it performs), single retry
(offered only on a Failed task), retry-all-failed (resetForRetry then a
fresh pass), removal and clear-completed — every task populates
downloadUrl only in the COMPLETED status, and carries a non-empty
errorMessage exactly in the ERROR status. -/
theorem task_store_invariant (s : AppState) (h : Reach s) :
    ∀ t ∈ s.tasks,
      (t.downloadUrl.isSome → t.status = TaskStatus.COMPLETED) ∧
      ((∃ m, t.errorMessage = some m ∧ m ≠ "") ↔ t.status = TaskStatus.ERROR) :=
  (reach_good s h).2.2

/-- C2 witness: enqueue one link, then run a batch whose resolution fails;
the resulting state is reachable and satisfies the invariant. -/
theorem task_store_invariant_witness :
    Reach ⟨(processBatch (addLinks [] 0 ["https://www.tiktok.com/@u/video/1"]).1
              (fun _ => ResolveResult.err "boom")).1,
           (addLinks [] 0 ["https://www.tiktok.com/@u/video/1"]).2⟩ ∧
    ∀ t ∈ (processBatch (addLinks [] 0 ["https://www.tiktok.com/@u/video/1"]).1
              (fun _ => ResolveResult.err "boom")).1,
      (t.downloadUrl.isSome → t.status = TaskStatus.COMPLETED) ∧
      ((∃ m, t.errorMessage = some m ∧ m ≠ "") ↔ t.status = TaskStatus.ERROR) :=
  have hreach : Reach ⟨(processBatch
        (addLinks [] 0 ["https://www.tiktok.com/@u/video/1"]).1
        (fun _ => ResolveResult.err "boom")).1,
      (addLinks [] 0 ["https://www.tiktok.com/@u/video/1"]).2⟩ :=
    Reach.batch ⟨(addLinks [] 0 ["https://www.tiktok.com/@u/video/1"]).1,
        (addLinks [] 0 ["https://www.tiktok.com/@u/video/1"]).2⟩
      (fun _ => ResolveResult.err "boom")
      (Reach.add ⟨[], 0⟩ ["https://www.tiktok.com/@u/video/1"] Reach.init)
  ⟨hreach, task_store_invariant _ hreach⟩

end TokBatch
